import Mathlib

/-!
# Verification of `monitor_results.py` (AutoMailer_N)

A shallow embedding of the core processing logic of `src/monitor_results.py`:
the configuration/checkpoint store, the tabular projection, template
selection, the per-row send loop of `process_sheet`, and the file-watcher
filter of `ExcelChangeHandler.on_modified`.

Machine-level collaborators (pandas, jinja2, smtplib, watchdog) are modelled
by the interface the core uses from them:
* a spreadsheet is a list of raw column headers plus a list of rows of cells;
* `jinja_env.get_template` succeeds exactly when the template file name is in
  the set of available template files;
* `send_email` either succeeds or raises, as dictated by a per-row-offset
  outcome oracle `sendOk`;
* `save_config` overwrites the persisted file with the full state dict.
-/

/-- Python whitespace characters recognised by `str.strip()` (the ASCII
whitespace set; the strings occurring in this program contain no exotic
Unicode whitespace). Models the default-argument behaviour of `.strip()`
used at `monitor_results.py` lines 82 and 95. -/
def isPySpace (ch : Char) : Bool :=
  ch = ' ' || ch = '\t' || ch = '\n' || ch = '\r' || ch = '\x0b' || ch = '\x0c'

/-- Python `str.strip()`: drop leading and trailing whitespace. -/
def pyStrip (s : String) : String :=
  ⟨((s.data.dropWhile isPySpace).reverse.dropWhile isPySpace).reverse⟩

/-- Python `str.lower()` restricted to the character ranges this program can
meet: ASCII `A`–`Z` and Cyrillic `А`–`Я` / `Ё` map to their lowercase forms,
all other characters are unchanged.  Models `.lower()` at
`monitor_results.py` line 95. -/
def charLower (ch : Char) : Char :=
  if 'A' ≤ ch ∧ ch ≤ 'Z' then Char.ofNat (ch.toNat + 32)
  else if 'А' ≤ ch ∧ ch ≤ 'Я' then Char.ofNat (ch.toNat + 32)
  else if ch = 'Ё' then 'ё'
  else ch

/-- Python `str.lower()` applied character-wise. -/
def pyLower (s : String) : String :=
  ⟨s.data.map charLower⟩

/-- A spreadsheet cell as seen through `pandas`: either a string value or a
missing value (`NaN`, what pandas puts in an empty cell). -/
inductive CellVal where
  | str (s : String)
  | nan
deriving DecidableEq

/-- Python `str(cell)`: a string renders as itself, a pandas missing value
(`float('nan')`) renders as `"nan"`.  Models `str(result)` at line 95. -/
def cellStr : CellVal → String
  | .str s => s
  | .nan => "nan"

/-- The persisted configuration blob (`config.json`).  `others` holds every
field other than the checkpoint (`excel_path`, `subject`, ...); the code
never touches them.  `last_processed_row` is `none` when the key is absent
from the file (then `state.get('last_processed_row', 1)` yields `1`). -/
structure Config where
  others : List (String × String)
  last_processed_row : Option Nat
deriving DecidableEq

/-- The fixed runtime environment of one pass: the `COLUMNS` mapping, the
`NEEDED_COLUMNS` list, the set of template files present in `TEMPLATES_DIR`,
and the transport outcome per row offset (`sendOk idx = true` iff
`send_email` for row `idx` returns without raising). -/
structure Env where
  columns_fio : String
  columns_email : String
  columns_result : String
  needed_columns : List String
  templates : List String
  sendOk : Nat → Bool

/-- The spreadsheet as read by `pd.read_excel(...)` with the configured
header row: `rawCols` are the header labels as they appear in the file,
`rows` are the data rows, each a list of cells aligned with `rawCols`. -/
structure Sheet where
  rawCols : List String
  rows : List (List CellVal)
deriving DecidableEq

/-- Exceptions that escape `process_sheet` uncaught: a `KeyError` from
`row[column]` on a column that was dropped (or never existed), a jinja2
`TemplateNotFound` from `get_template`, and an out-of-range `iloc`. -/
inductive PassError where
  | keyError (col : String)
  | templateNotFound (name : String)
  | indexError
deriving DecidableEq

/-- `df_full.columns.str.strip()` (line 82): the cleaned column labels. -/
def colsOf (sheet : Sheet) : List String :=
  sheet.rawCols.map pyStrip

/-- `df = df_full.filter(items=NEEDED_COLUMNS)` (line 84).  pandas `filter`
keeps the labels of `items` that are present in the frame, in `items`
order, and silently drops the rest; it never raises on a missing label. -/
def fcolsOf (env : Env) (sheet : Sheet) : List String :=
  env.needed_columns.filter (fun c => (colsOf sheet).contains c)

/-- `row[c]` on a row of the filtered frame (lines 89–91): raises `KeyError`
when `c` is not among the filtered columns, otherwise yields the cell that
sits under the (stripped) header `c` in the source row. -/
def getCell (cols fcols : List String) (cells : List CellVal) (c : String) :
    Except PassError CellVal :=
  if fcols.contains c then
    match cols.indexOf? c with
    | some i =>
      match cells[i]? with
      | some v => .ok v
      | none => .error (.keyError c)
    | none => .error (.keyError c)
  else .error (.keyError c)

/-- Template selection (lines 94–97):
`'passed.j2' if str(result).strip().lower() == 'прошел' else 'failed.j2'`. -/
def select_template (result : CellVal) : String :=
  if pyLower (pyStrip (cellStr result)) = "прошел" then "passed.j2" else "failed.j2"

/-- The observable trace of the `for idx in range(last_row, total_rows)`
loop (lines 87–108):
* `final` — the value of the `state` dict when the loop ends or the
  uncaught exception leaves `process_sheet`;
* `writes` — the successive `save_config(state)` payloads (line 108);
* `attempted` — offsets for which `send_email` was called (line 102);
* `sent` — offsets whose send succeeded (the `else:` branch, lines 105–108);
* `errors` — offsets whose send raised and was logged (lines 103–104);
* `exit` — `none` for a normal return, `some e` when an exception escaped
  the loop (template lookup and column access sit outside the `try`). -/
structure LoopOut where
  final : Config
  writes : List Config
  attempted : List Nat
  sent : List Nat
  errors : List Nat
  exit : Option PassError
deriving DecidableEq

/-- The loop body of `process_sheet`, iterated over the remaining row
offsets.  Faithful to lines 87–108: column extraction (89–91) and template
lookup/render (94–99) happen before and outside the `try`, so their failures
abort the pass; only `send_email` (102) is guarded, a failure there is
logged (104) and the loop continues; a success updates
`state['last_processed_row'] = idx + 1` and immediately persists it
(106–108). -/
def passLoop (env : Env) (cols fcols : List String) (rows : List (List CellVal)) :
    Config → List Nat → LoopOut
  | state, [] => ⟨state, [], [], [], [], none⟩
  | state, idx :: rest =>
    match rows[idx]? with
    | none => ⟨state, [], [], [], [], some .indexError⟩
    | some cells =>
      match getCell cols fcols cells env.columns_fio with
      | .error e => ⟨state, [], [], [], [], some e⟩
      | .ok _fio =>
        match getCell cols fcols cells env.columns_email with
        | .error e => ⟨state, [], [], [], [], some e⟩
        | .ok _email =>
          match getCell cols fcols cells env.columns_result with
          | .error e => ⟨state, [], [], [], [], some e⟩
          | .ok result =>
            if env.templates.contains (select_template result) then
              if env.sendOk idx then
                let state' : Config := ⟨state.others, some (idx + 1)⟩
                let o := passLoop env cols fcols rows state' rest
                ⟨o.final, state' :: o.writes, idx :: o.attempted,
                  idx :: o.sent, o.errors, o.exit⟩
              else
                let o := passLoop env cols fcols rows state rest
                ⟨o.final, o.writes, idx :: o.attempted,
                  o.sent, idx :: o.errors, o.exit⟩
            else ⟨state, [], [], [], [], some (.templateNotFound (select_template result))⟩

/-- The outcome of one pass as observable from outside: `finalFile` is the
content of `config.json` after the pass — the payload of the last
`save_config` call, or the unchanged file when no save happened. -/
structure PassOutcome where
  finalFile : Config
  writes : List Config
  attempted : List Nat
  sent : List Nat
  errors : List Nat
  exit : Option PassError
deriving DecidableEq

/-- Package a loop trace into a pass outcome relative to the pre-pass file
content. -/
def mkOutcome (file : Config) (o : LoopOut) : PassOutcome :=
  ⟨(o.writes.getLast?).getD file, o.writes, o.attempted, o.sent, o.errors, o.exit⟩

/-- `process_sheet()` (lines 70–108) for one pass, as a function of the
environment, the current spreadsheet content, and the current content of
`config.json`:
1. `state = load_config()`; `last_row = state.get('last_processed_row', 1)`;
2. read the sheet, strip headers, project on `NEEDED_COLUMNS` (the column
   filter does not change the row count, so `total_rows = len(df)` is the
   sheet's row count);
3. run the loop over `range(last_row, total_rows)`. -/
def process_sheet (env : Env) (sheet : Sheet) (file : Config) : PassOutcome :=
  mkOutcome file
    (passLoop env (colsOf sheet) (fcolsOf env sheet) sheet.rows file
      (List.range' (file.last_processed_row.getD 1)
        (sheet.rows.length - file.last_processed_row.getD 1)))

/-- Python `str.endswith`: suffix test on the code-point sequence.  Models
`event.src_path.endswith(EXCEL_PATH.name)` at line 113. -/
def pyEndsWith (s suffix : String) : Bool :=
  suffix.data.isSuffixOf s.data

/-- `ExcelChangeHandler.on_modified` (lines 112–115): the number of
`process_sheet()` invocations triggered by one modification event carrying
path `srcPath`, when the tracked spreadsheet's file name is `excelName`. -/
def ExcelChangeHandler_on_modified (excelName srcPath : String) : Nat :=
  if pyEndsWith srcPath excelName then 1 else 0

/-- A row offset is well-formed for the pass: the row exists, the three
mapped columns are accessible on the filtered frame, and the template file
selected by its result value is present.  Exactly the conditions under which
the loop body for this offset cannot abort the pass. -/
def rowOK (env : Env) (cols fcols : List String) (rows : List (List CellVal))
    (idx : Nat) : Bool :=
  match rows[idx]? with
  | none => false
  | some cells =>
    match getCell cols fcols cells env.columns_fio with
    | .error _ => false
    | .ok _ =>
      match getCell cols fcols cells env.columns_email with
      | .error _ => false
      | .ok _ =>
        match getCell cols fcols cells env.columns_result with
        | .error _ => false
        | .ok r => env.templates.contains (select_template r)

/-- All rows from offset `c` to the end of the sheet are well-formed. -/
abbrev rowsOK (env : Env) (sheet : Sheet) (c : Nat) : Prop :=
  ∀ idx ∈ List.range' c (sheet.rows.length - c),
    rowOK env (colsOf sheet) (fcolsOf env sheet) sheet.rows idx = true

/-- The content of `config.json` after a sequence of checkpoint writes
issued from base state `state`: the last write wins, no write leaves the
file unchanged.  (`applyWrites state js` is the file after saving
checkpoints `j + 1` for `j ∈ js` in order.) -/
def applyWrites (state : Config) (js : List Nat) : Config :=
  match js.getLast? with
  | some j => ⟨state.others, some (j + 1)⟩
  | none => state

/-- A concrete well-formed environment: the three logical columns of the
config's `columns` mapping, `needed_columns` listing exactly those, both
template files present, every send succeeding. -/
def exEnv : Env :=
  { columns_fio := "ФИО"
    columns_email := "Email"
    columns_result := "Результат"
    needed_columns := ["ФИО", "Email", "Результат"]
    templates := ["passed.j2", "failed.j2"]
    sendOk := fun _ => true }

/-- A concrete two-row sheet; the first header carries trailing whitespace
that `columns.str.strip()` removes; row 0 has a padded, capitalised pass
marker, row 1 a fail value. -/
def exSheet : Sheet :=
  { rawCols := ["ФИО ", "Email", "Результат"]
    rows := [[.str "Иванов Иван", .str "ivanov@mail.ru", .str " Прошел "],
             [.str "Петров Петр", .str "petrov@mail.ru", .str "не прошел"]] }

/-- A concrete `config.json` content with checkpoint `c`. -/
def exFile (c : Nat) : Config :=
  { others := [("excel_path", "results.xlsx"), ("subject", "Результаты")]
    last_processed_row := some c }

/-- `exEnv` with the transport failing exactly on row offset 0. -/
def failEnv0 : Env :=
  { exEnv with sendOk := fun i => !(i == 0) }

/-- `exEnv` with the `failed.j2` template file absent from the templates
directory. -/
def noTemplateEnv : Env :=
  { exEnv with templates := ["passed.j2"] }

/-- A sheet whose row 0 selects the fail template and whose row 1 selects
the pass template. -/
def c3Sheet : Sheet :=
  { rawCols := ["ФИО", "Email", "Результат"]
    rows := [[.str "Сидоров", .str "sidorov@mail.ru", .str "не прошел"],
             [.str "Иванов", .str "ivanov@mail.ru", .str "прошел"]] }

/-- `exEnv` with an extra needed column that `exSheet` does not have. -/
def c7ExtraEnv : Env :=
  { exEnv with needed_columns := ["ФИО", "Email", "Результат", "Телефон"] }

/-- A sheet lacking the mapped `fio` column entirely. -/
def c7Sheet : Sheet :=
  { rawCols := ["Email", "Результат"]
    rows := [[.str "ivanov@mail.ru", .str "прошел"]] }

/-- Destructor for `rowOK`: a well-formed offset yields the row, the three
cell values, and the presence of the selected template. -/
theorem rowOK_spec {env : Env} {cols fcols : List String}
    {rows : List (List CellVal)} {idx : Nat}
    (h : rowOK env cols fcols rows idx = true) :
    ∃ cells vf ve vr, rows[idx]? = some cells ∧
      getCell cols fcols cells env.columns_fio = .ok vf ∧
      getCell cols fcols cells env.columns_email = .ok ve ∧
      getCell cols fcols cells env.columns_result = .ok vr ∧
      env.templates.contains (select_template vr) = true := by
  unfold rowOK at h
  cases hget : rows[idx]? with
  | none => simp only [hget] at h; exact absurd h (by decide)
  | some cells =>
    simp only [hget] at h
    cases hfio : getCell cols fcols cells env.columns_fio with
    | error e => simp only [hfio] at h; exact absurd h (by decide)
    | ok vf =>
      simp only [hfio] at h
      cases hemail : getCell cols fcols cells env.columns_email with
      | error e => simp only [hemail] at h; exact absurd h (by decide)
      | ok ve =>
        simp only [hemail] at h
        cases hres : getCell cols fcols cells env.columns_result with
        | error e => simp only [hres] at h; exact absurd h (by decide)
        | ok vr =>
          simp only [hres] at h
          exact ⟨cells, vf, ve, vr, rfl, hfio, hemail, hres, h⟩

/-- `getLast?` of a cons, with default: the head becomes the new default. -/
theorem getLast_cons_getD {α : Type} (a x : α) (l : List α) :
    ((a :: l).getLast?).getD x = (l.getLast?).getD a := by
  cases l with
  | nil => rfl
  | cons b m => rw [List.getLast?_cons_cons]; rfl

/-- Saving checkpoint `i + 1` first is absorbed into the base state. -/
theorem applyWrites_cons (state : Config) (i : Nat) (js : List Nat) :
    applyWrites state (i :: js) =
      applyWrites ⟨state.others, some (i + 1)⟩ js := by
  cases js with
  | nil => rfl
  | cons j m =>
    unfold applyWrites
    rw [List.getLast?_cons_cons]
    cases h : (j :: m).getLast? with
    | none => simp at h
    | some x => rfl

/-- `applyWrites` never touches the non-checkpoint fields. -/
theorem applyWrites_others (state : Config) (js : List Nat) :
    (applyWrites state js).others = state.others := by
  unfold applyWrites
  cases js.getLast? <;> rfl

/-- Writing two batches in sequence. -/
theorem applyWrites_append (state : Config) (l1 l2 : List Nat) :
    applyWrites state (l1 ++ l2) = applyWrites (applyWrites state l1) l2 := by
  induction l1 generalizing state with
  | nil => rfl
  | cons a t ih =>
    rw [List.cons_append, applyWrites_cons, ih, applyWrites_cons]

/-- The last element of `range'`. -/
theorem range'_getLast? (c m : Nat) :
    (List.range' c (m + 1)).getLast? = some (c + m) := by
  induction m generalizing c with
  | zero => rfl
  | succ m ih =>
    rw [List.range'_succ, show List.range' (c + 1) (m + 1) = (c + 1) :: List.range' (c + 1 + 1) m from List.range'_succ .., List.getLast?_cons_cons, ← List.range'_succ, ih]
    congr 1
    omega

/-- Writing the checkpoints of a nonempty contiguous block `c, ..., c+m-1`
leaves the file at checkpoint `c + m`. -/
theorem applyWrites_range' (state : Config) (c m : Nat) (h : 0 < m) :
    applyWrites state (List.range' c m) = ⟨state.others, some (c + m)⟩ := by
  obtain ⟨m', rfl⟩ : ∃ m', m = m' + 1 := ⟨m - 1, by omega⟩
  unfold applyWrites
  rw [range'_getLast?]
  rfl

/-- Master characterisation of the loop on well-formed rows: every offset is
attempted in order, the successful ones (per `sendOk`) are sent and each
immediately persists its own `idx + 1` checkpoint over the unchanged other
fields, the failing ones are logged, and the loop never aborts. -/
theorem passLoop_ok (env : Env) (cols fcols : List String)
    (rows : List (List CellVal)) :
    ∀ (idxs : List Nat) (state : Config),
    (∀ idx ∈ idxs, rowOK env cols fcols rows idx = true) →
    passLoop env cols fcols rows state idxs =
      ⟨applyWrites state (idxs.filter env.sendOk),
       (idxs.filter env.sendOk).map (fun i => ⟨state.others, some (i + 1)⟩),
       idxs, idxs.filter env.sendOk,
       idxs.filter (fun i => !env.sendOk i), none⟩ := by
  intro idxs
  induction idxs with
  | nil => intro state _; rfl
  | cons idx rest ih =>
    intro state h
    obtain ⟨cells, vf, ve, vr, hget, hfio, hemail, hres, htm⟩ :=
      rowOK_spec (h idx (List.mem_cons_self _ _))
    have hrest : ∀ i ∈ rest, rowOK env cols fcols rows i = true :=
      fun i hi => h i (List.mem_cons_of_mem _ hi)
    cases hs : env.sendOk idx with
    | true =>
      simp only [passLoop, hget, hfio, hemail, hres, htm, hs, if_true,
        ih _ hrest, List.filter_cons, Bool.not_true, List.map_cons,
        applyWrites_cons]
      simp
    | false =>
      simp only [passLoop, hget, hfio, hemail, hres, htm, hs,
        ih _ hrest, List.filter_cons, Bool.not_false, List.map_cons]
      simp

/-- Structural facts holding for every pass, aborting or not: each
`save_config` payload is the full config with only the checkpoint changed
(set to the corresponding successful offset plus one), the successful
offsets are a subsequence of the traversed offsets, and the in-memory state
never changes its non-checkpoint fields. -/
theorem passLoop_structure (env : Env) (cols fcols : List String)
    (rows : List (List CellVal)) :
    ∀ (idxs : List Nat) (state : Config),
    (passLoop env cols fcols rows state idxs).writes =
      (passLoop env cols fcols rows state idxs).sent.map
        (fun i => (⟨state.others, some (i + 1)⟩ : Config)) ∧
    (passLoop env cols fcols rows state idxs).sent.Sublist idxs ∧
    (passLoop env cols fcols rows state idxs).final.others = state.others := by
  intro idxs
  induction idxs with
  | nil => intro state; exact ⟨rfl, List.nil_sublist _, rfl⟩
  | cons idx rest ih =>
    intro state
    cases hget : rows[idx]? with
    | none => simp [passLoop, hget, List.nil_sublist]
    | some cells =>
      cases hfio : getCell cols fcols cells env.columns_fio with
      | error e => simp [passLoop, hget, hfio, List.nil_sublist]
      | ok vf =>
        cases hemail : getCell cols fcols cells env.columns_email with
        | error e => simp [passLoop, hget, hfio, hemail, List.nil_sublist]
        | ok ve =>
          cases hres : getCell cols fcols cells env.columns_result with
          | error e => simp [passLoop, hget, hfio, hemail, hres, List.nil_sublist]
          | ok vr =>
            cases htm : env.templates.contains (select_template vr) with
            | false =>
              have htm' : ¬ select_template vr ∈ env.templates := by simpa using htm
              simp [passLoop, hget, hfio, hemail, hres, htm', List.nil_sublist]
            | true =>
              cases hs : env.sendOk idx with
              | true =>
                have h := ih (⟨state.others, some (idx + 1)⟩ : Config)
                simp only [passLoop, hget, hfio, hemail, hres, htm, hs, if_true]
                refine ⟨?_, List.Sublist.cons₂ _ h.2.1, h.2.2⟩
                rw [h.1, List.map_cons]
              | false =>
                have h := ih state
                simp only [passLoop, hget, hfio, hemail, hres, htm, hs]
                exact ⟨h.1, List.Sublist.cons _ h.2.1, h.2.2⟩

/-- The content of `config.json` after the loop — the last saved payload, or
the original content when no save happened — coincides with the loop's final
in-memory state (the state is mutated only right before each save). -/
theorem passLoop_writes_getLast (env : Env) (cols fcols : List String)
    (rows : List (List CellVal)) :
    ∀ (idxs : List Nat) (state : Config),
    ((passLoop env cols fcols rows state idxs).writes.getLast?).getD state =
      (passLoop env cols fcols rows state idxs).final := by
  intro idxs
  induction idxs with
  | nil => intro state; rfl
  | cons idx rest ih =>
    intro state
    cases hget : rows[idx]? with
    | none => simp [passLoop, hget]
    | some cells =>
      cases hfio : getCell cols fcols cells env.columns_fio with
      | error e => simp [passLoop, hget, hfio]
      | ok vf =>
        cases hemail : getCell cols fcols cells env.columns_email with
        | error e => simp [passLoop, hget, hfio, hemail]
        | ok ve =>
          cases hres : getCell cols fcols cells env.columns_result with
          | error e => simp [passLoop, hget, hfio, hemail, hres]
          | ok vr =>
            cases htm : env.templates.contains (select_template vr) with
            | false =>
              have htm' : ¬ select_template vr ∈ env.templates := by simpa using htm
              simp [passLoop, hget, hfio, hemail, hres, htm']
            | true =>
              cases hs : env.sendOk idx with
              | true =>
                simp only [passLoop, hget, hfio, hemail, hres, htm, hs, if_true]
                rw [getLast_cons_getD]
                exact ih (⟨state.others, some (idx + 1)⟩ : Config)
              | false =>
                simp only [passLoop, hget, hfio, hemail, hres, htm, hs]
                exact ih state

/-- A pass whose checkpoint is at or past the end of the table does nothing:
no send, no `save_config`, `config.json` untouched, normal return. -/
theorem process_sheet_empty (env : Env) (sheet : Sheet) (file : Config) (c : Nat)
    (hfile : file.last_processed_row = some c) (h : sheet.rows.length ≤ c) :
    process_sheet env sheet file = ⟨file, [], [], [], [], none⟩ := by
  unfold process_sheet mkOutcome
  rw [hfile]
  simp only [Option.getD_some, Nat.sub_eq_zero_of_le h]
  rfl

/-- One pass over well-formed rows, with the transport outcomes left free:
the traversed offsets are `range(c, n)`, the successes are the `sendOk`
subset, each success saved its own checkpoint, the failures were logged, and
the final file is the last saved checkpoint (or the untouched file). -/
theorem process_sheet_rowsOK (env : Env) (sheet : Sheet) (file : Config) (c : Nat)
    (hfile : file.last_processed_row = some c) (hrows : rowsOK env sheet c) :
    process_sheet env sheet file =
      ⟨applyWrites file ((List.range' c (sheet.rows.length - c)).filter env.sendOk),
       ((List.range' c (sheet.rows.length - c)).filter env.sendOk).map
         (fun i => ⟨file.others, some (i + 1)⟩),
       List.range' c (sheet.rows.length - c),
       (List.range' c (sheet.rows.length - c)).filter env.sendOk,
       (List.range' c (sheet.rows.length - c)).filter (fun i => !env.sendOk i),
       none⟩ := by
  have hmaster := passLoop_ok env (colsOf sheet) (fcolsOf env sheet) sheet.rows
    (List.range' c (sheet.rows.length - c)) file hrows
  have hlast := passLoop_writes_getLast env (colsOf sheet) (fcolsOf env sheet)
    sheet.rows (List.range' c (sheet.rows.length - c)) file
  rw [hmaster] at hlast
  unfold process_sheet mkOutcome
  rw [hfile]
  simp only [Option.getD_some]
  rw [hmaster]
  simp only at hlast ⊢
  rw [hlast]

/-- A fully successful pass over well-formed rows from checkpoint `c ≤ n`:
every remaining row is sent in order, each send persists its checkpoint, and
the file ends at checkpoint `n` with the other fields unchanged. -/
theorem process_sheet_all_success (env : Env) (sheet : Sheet) (file : Config)
    (c : Nat) (hfile : file.last_processed_row = some c)
    (hc : c ≤ sheet.rows.length) (hrows : rowsOK env sheet c)
    (hok : ∀ i, env.sendOk i = true) :
    process_sheet env sheet file =
      ⟨⟨file.others, some sheet.rows.length⟩,
       (List.range' c (sheet.rows.length - c)).map
         (fun i => ⟨file.others, some (i + 1)⟩),
       List.range' c (sheet.rows.length - c),
       List.range' c (sheet.rows.length - c),
       [], none⟩ := by
  rw [process_sheet_rowsOK env sheet file c hfile hrows]
  have hfilter : (List.range' c (sheet.rows.length - c)).filter env.sendOk
      = List.range' c (sheet.rows.length - c) :=
    List.filter_eq_self.mpr (fun a _ => hok a)
  have hfilter2 : (List.range' c (sheet.rows.length - c)).filter
      (fun i => !env.sendOk i) = [] :=
    List.filter_eq_nil_iff.mpr (fun a _ => by simp [hok a])
  rcases Nat.lt_or_ge c sheet.rows.length with hlt | hge
  · have harith : c + (sheet.rows.length - c) = sheet.rows.length := by omega
    rw [hfilter, hfilter2, applyWrites_range' _ _ _ (by omega), harith]
  · have h0 : sheet.rows.length - c = 0 := by omega
    have hceq : c = sheet.rows.length := Nat.le_antisymm hc hge
    rw [hfilter, hfilter2, h0]
    congr 1
    show file = (⟨file.others, some sheet.rows.length⟩ : Config)
    cases file with
    | mk o l =>
      simp only [Config.mk.injEq]
      exact ⟨trivial, by rw [show l = some c from hfile, hceq]⟩

/-- C2: for every checkpoint `c` and table of `n` rows with `0 ≤ c ≤ n`, one
pass in which every send succeeds ends with the persisted checkpoint equal
to `n` and sends exactly `n - c` emails, one per remaining row, in strictly
increasing row-offset order (`sent = [c, c+1, ..., n-1]`). -/
theorem C2_full_pass (env : Env) (sheet : Sheet) (file : Config) (c : Nat)
    (hfile : file.last_processed_row = some c) (hc : c ≤ sheet.rows.length)
    (hrows : rowsOK env sheet c) (hok : ∀ i, env.sendOk i = true) :
    (process_sheet env sheet file).finalFile.last_processed_row
        = some sheet.rows.length ∧
    (process_sheet env sheet file).sent
        = List.range' c (sheet.rows.length - c) ∧
    (process_sheet env sheet file).sent.length = sheet.rows.length - c ∧
    (process_sheet env sheet file).exit = none := by
  rw [process_sheet_all_success env sheet file c hfile hc hrows hok]
  exact ⟨rfl, rfl, by simp, rfl⟩

/-- Witness for C2 at `c = 0`, `n = 2`. -/
theorem C2_full_pass_witness :
    (exFile 0).last_processed_row = some 0 ∧
    0 ≤ exSheet.rows.length ∧
    rowsOK exEnv exSheet 0 ∧
    ((process_sheet exEnv exSheet (exFile 0)).finalFile.last_processed_row
        = some 2 ∧
     (process_sheet exEnv exSheet (exFile 0)).sent = [0, 1] ∧
     (process_sheet exEnv exSheet (exFile 0)).sent.length = 2 ∧
     (process_sheet exEnv exSheet (exFile 0)).exit = none) :=
  ⟨rfl, by decide, by decide,
   C2_full_pass exEnv exSheet (exFile 0) 0 rfl (by decide) (by decide)
     (fun _ => rfl)⟩

/-- C5: a second pass run immediately after a fully successful pass, with the
table and the persisted file unchanged, sends zero emails, performs no
config write, and leaves the persisted checkpoint unchanged. -/
theorem C5_idempotent_resume (env : Env) (sheet : Sheet) (file : Config)
    (c : Nat) (hfile : file.last_processed_row = some c)
    (hc : c ≤ sheet.rows.length) (hrows : rowsOK env sheet c)
    (hok : ∀ i, env.sendOk i = true) :
    (process_sheet env sheet (process_sheet env sheet file).finalFile).sent = [] ∧
    (process_sheet env sheet (process_sheet env sheet file).finalFile).writes = [] ∧
    (process_sheet env sheet (process_sheet env sheet file).finalFile).finalFile
      = (process_sheet env sheet file).finalFile := by
  rw [process_sheet_all_success env sheet file c hfile hc hrows hok]
  rw [process_sheet_empty env sheet _ sheet.rows.length rfl (Nat.le_refl _)]
  exact ⟨rfl, rfl, rfl⟩

/-- Witness for C5 at `c = 0`, `n = 2`. -/
theorem C5_idempotent_resume_witness :
    (exFile 0).last_processed_row = some 0 ∧
    rowsOK exEnv exSheet 0 ∧
    ((process_sheet exEnv exSheet
        (process_sheet exEnv exSheet (exFile 0)).finalFile).sent = [] ∧
     (process_sheet exEnv exSheet
        (process_sheet exEnv exSheet (exFile 0)).finalFile).writes = [] ∧
     (process_sheet exEnv exSheet
        (process_sheet exEnv exSheet (exFile 0)).finalFile).finalFile
       = (process_sheet exEnv exSheet (exFile 0)).finalFile) :=
  ⟨rfl, by decide,
   C5_idempotent_resume exEnv exSheet (exFile 0) 0 rfl (by decide) (by decide)
     (fun _ => rfl)⟩

/-- C9: frame property of checkpoint persistence.  Every `save_config` call
of a pass writes the full configuration record, equal to the loaded one in
every field except `last_processed_row` (which it sets to the succeeding
row's offset plus one); the persisted file after the pass agrees with the
loaded one on all non-checkpoint fields. -/
theorem C9_frame (env : Env) (sheet : Sheet) (file : Config) :
    (process_sheet env sheet file).writes =
      (process_sheet env sheet file).sent.map
        (fun i => (⟨file.others, some (i + 1)⟩ : Config)) ∧
    (process_sheet env sheet file).finalFile.others = file.others := by
  have h := passLoop_structure env (colsOf sheet) (fcolsOf env sheet) sheet.rows
    (List.range' (file.last_processed_row.getD 1)
      (sheet.rows.length - file.last_processed_row.getD 1)) file
  have hlast := passLoop_writes_getLast env (colsOf sheet) (fcolsOf env sheet)
    sheet.rows
    (List.range' (file.last_processed_row.getD 1)
      (sheet.rows.length - file.last_processed_row.getD 1)) file
  unfold process_sheet mkOutcome
  refine ⟨h.1, ?_⟩
  simp only
  rw [hlast]
  exact h.2.2

/-- C10: a pass whose stored checkpoint `c` is at or past the current row
count `n` (including a stale checkpoint left over after the table shrank)
sends zero emails, performs no config write, and leaves the persisted file
exactly as it was — even when the checkpoint exceeds `n`. -/
theorem C10_stale_checkpoint (env : Env) (sheet : Sheet) (file : Config)
    (c : Nat) (hfile : file.last_processed_row = some c)
    (h : sheet.rows.length ≤ c) :
    (process_sheet env sheet file).sent = [] ∧
    (process_sheet env sheet file).writes = [] ∧
    (process_sheet env sheet file).finalFile = file ∧
    (process_sheet env sheet file).exit = none := by
  rw [process_sheet_empty env sheet file c hfile h]
  exact ⟨rfl, rfl, rfl, rfl⟩

/-- Witness for C10 with a stale checkpoint `5` over a 2-row table. -/
theorem C10_stale_checkpoint_witness :
    (exFile 5).last_processed_row = some 5 ∧
    exSheet.rows.length ≤ 5 ∧
    ((process_sheet exEnv exSheet (exFile 5)).sent = [] ∧
     (process_sheet exEnv exSheet (exFile 5)).writes = [] ∧
     (process_sheet exEnv exSheet (exFile 5)).finalFile = exFile 5 ∧
     (process_sheet exEnv exSheet (exFile 5)).exit = none) :=
  ⟨rfl, by decide,
   C10_stale_checkpoint exEnv exSheet (exFile 5) 5 rfl (by decide)⟩

/-- C3 is refuted by `C3_counterexample`; this is the amended statement.
Send-stage failures (`send_email` raising) are caught at the row level:
each produces one log entry, leaves the checkpoint unadvanced for that row,
and the loop continues through every remaining row — no send failure aborts
the pass.  But a missing template file is NOT caught at the row level:
`get_template` runs outside the `try`, so `TemplateNotFound` aborts the
whole pass (hence the `rowsOK` hypothesis here, which includes template
availability). -/
theorem C3_amended_send_isolation (env : Env) (sheet : Sheet) (file : Config)
    (c : Nat) (hfile : file.last_processed_row = some c)
    (hrows : rowsOK env sheet c) :
    (process_sheet env sheet file).exit = none ∧
    (process_sheet env sheet file).attempted
      = List.range' c (sheet.rows.length - c) ∧
    (process_sheet env sheet file).errors
      = (List.range' c (sheet.rows.length - c)).filter (fun i => !env.sendOk i) ∧
    (process_sheet env sheet file).sent
      = (List.range' c (sheet.rows.length - c)).filter env.sendOk := by
  rw [process_sheet_rowsOK env sheet file c hfile hrows]
  exact ⟨rfl, rfl, rfl, rfl⟩

/-- Witness for the amended C3: row 0's send fails, it is logged, and the
loop still attempts (and succeeds on) row 1. -/
theorem C3_amended_send_isolation_witness :
    (exFile 0).last_processed_row = some 0 ∧
    rowsOK failEnv0 exSheet 0 ∧
    ((process_sheet failEnv0 exSheet (exFile 0)).exit = none ∧
     (process_sheet failEnv0 exSheet (exFile 0)).attempted = [0, 1] ∧
     (process_sheet failEnv0 exSheet (exFile 0)).errors = [0] ∧
     (process_sheet failEnv0 exSheet (exFile 0)).sent = [1]) :=
  ⟨rfl, by decide,
   C3_amended_send_isolation failEnv0 exSheet (exFile 0) 0 rfl (by decide)⟩

/-- Counterexample to C3 as stated: with `failed.j2` absent, row 0's
per-row failure (`TemplateNotFound`) is not caught and not logged, no send
is ever attempted, and the pass aborts — row 1 (which would select the
available `passed.j2`) is never reached. -/
theorem C3_counterexample :
    (process_sheet noTemplateEnv c3Sheet (exFile 0)).exit
      = some (.templateNotFound "failed.j2") ∧
    (process_sheet noTemplateEnv c3Sheet (exFile 0)).attempted = [] ∧
    (process_sheet noTemplateEnv c3Sheet (exFile 0)).errors = [] ∧
    (process_sheet noTemplateEnv c3Sheet (exFile 0)).writes = [] ∧
    c3Sheet.rows.length = 2 := by decide

/-- C6 is refuted by `C6_counterexample` (a stale checkpoint above the row
count persists above it); this is the amended statement.  Within every pass
(any transport outcomes, aborting or not): the sequence of persisted
checkpoint values is exactly the successful offsets each plus one; prefixed
with the initial checkpoint `c` it is strictly increasing, so no write ever
lowers the checkpoint; and every value written never exceeds the row count
of the table being processed. -/
theorem C6_amended_monotone (env : Env) (sheet : Sheet) (file : Config)
    (c : Nat) (hfile : file.last_processed_row = some c) :
    (process_sheet env sheet file).writes.map Config.last_processed_row =
      (process_sheet env sheet file).sent.map (fun i => some (i + 1)) ∧
    List.Pairwise (· < ·)
      (c :: (process_sheet env sheet file).sent.map (· + 1)) ∧
    (∀ x ∈ (process_sheet env sheet file).sent,
      x + 1 ≤ sheet.rows.length) := by
  have h := passLoop_structure env (colsOf sheet) (fcolsOf env sheet) sheet.rows
    (List.range' c (sheet.rows.length - c)) file
  have hmem : ∀ x ∈ (passLoop env (colsOf sheet) (fcolsOf env sheet) sheet.rows
      file (List.range' c (sheet.rows.length - c))).sent,
      c ≤ x ∧ x < sheet.rows.length := by
    intro x hx
    have hx2 := h.2.1.subset hx
    rw [List.mem_range'_1] at hx2
    omega
  unfold process_sheet mkOutcome
  rw [hfile]
  simp only [Option.getD_some]
  refine ⟨?_, ?_, ?_⟩
  · rw [h.1, List.map_map]
    rfl
  · refine List.pairwise_cons.mpr ⟨?_, ?_⟩
    · intro b hb
      rw [List.mem_map] at hb
      obtain ⟨x, hx, rfl⟩ := hb
      have := hmem x hx
      omega
    · refine List.pairwise_map.mpr ?_
      refine List.Pairwise.imp ?_
        (List.Pairwise.sublist h.2.1 (List.pairwise_lt_range' c _))
      intro a b hab
      omega
  · intro x hx
    have := hmem x hx
    omega

/-- Counterexample to C6 as stated: with a persisted checkpoint of `5` and a
2-row table, the checkpoint remains `5` across the pass — it exceeds the
total row count of the table being processed. -/
theorem C6_counterexample :
    (process_sheet exEnv exSheet (exFile 5)).finalFile.last_processed_row
      = some 5 ∧
    exSheet.rows.length = 2 ∧
    ¬ (5 ≤ exSheet.rows.length) := by decide

/-- Witness for the amended C6: a pass with a failing row 0 writes only the
checkpoint `2` (for successful row 1), strictly above the initial `0` and
within the row count. -/
theorem C6_amended_monotone_witness :
    (exFile 0).last_processed_row = some 0 ∧
    ((process_sheet failEnv0 exSheet (exFile 0)).writes.map
        Config.last_processed_row
      = (process_sheet failEnv0 exSheet (exFile 0)).sent.map
          (fun i => some (i + 1)) ∧
     List.Pairwise (· < ·)
       (0 :: (process_sheet failEnv0 exSheet (exFile 0)).sent.map (· + 1)) ∧
     (∀ x ∈ (process_sheet failEnv0 exSheet (exFile 0)).sent,
       x + 1 ≤ exSheet.rows.length)) :=
  ⟨rfl, C6_amended_monotone failEnv0 exSheet (exFile 0) 0 rfl⟩

/-- C7 is refuted by `C7_counterexample` (a needed column absent from the
source is silently dropped by the projection and the pass sends anyway);
this is the amended statement.  The projection itself never fails.  Only
when one of the three mapped columns (here `fio`, symmetrically the others)
is missing from the filtered frame does the pass abort — with an uncaught
`KeyError` at the first processed row, before any send of that pass, leaving
the persisted file untouched. -/
theorem C7_amended_missing_column (env : Env) (sheet : Sheet) (file : Config)
    (c : Nat) (hfile : file.last_processed_row = some c)
    (hc : c < sheet.rows.length)
    (hmiss : (fcolsOf env sheet).contains env.columns_fio = false) :
    (process_sheet env sheet file).exit
      = some (.keyError env.columns_fio) ∧
    (process_sheet env sheet file).attempted = [] ∧
    (process_sheet env sheet file).sent = [] ∧
    (process_sheet env sheet file).writes = [] ∧
    (process_sheet env sheet file).finalFile = file := by
  obtain ⟨cells, hcells⟩ : ∃ cells, sheet.rows[c]? = some cells :=
    ⟨_, List.getElem?_eq_getElem hc⟩
  have hrange : List.range' c (sheet.rows.length - c)
      = c :: List.range' (c + 1) (sheet.rows.length - c - 1) := by
    have h1 : sheet.rows.length - c = (sheet.rows.length - c - 1) + 1 := by
      omega
    rw [h1, List.range'_succ, Nat.add_sub_cancel]
  have hkey : getCell (colsOf sheet) (fcolsOf env sheet) cells env.columns_fio
      = .error (.keyError env.columns_fio) := by
    unfold getCell
    rw [hmiss]
    simp
  unfold process_sheet mkOutcome
  rw [hfile]
  simp only [Option.getD_some]
  rw [hrange]
  simp [passLoop, hcells, hkey]

/-- Witness for the amended C7: the sheet has no `ФИО` column at all, so the
first row access raises `KeyError` and nothing is sent or written. -/
theorem C7_amended_missing_column_witness :
    (exFile 0).last_processed_row = some 0 ∧
    0 < c7Sheet.rows.length ∧
    (fcolsOf exEnv c7Sheet).contains exEnv.columns_fio = false ∧
    ((process_sheet exEnv c7Sheet (exFile 0)).exit
        = some (.keyError "ФИО") ∧
     (process_sheet exEnv c7Sheet (exFile 0)).attempted = [] ∧
     (process_sheet exEnv c7Sheet (exFile 0)).sent = [] ∧
     (process_sheet exEnv c7Sheet (exFile 0)).writes = [] ∧
     (process_sheet exEnv c7Sheet (exFile 0)).finalFile = exFile 0) :=
  ⟨rfl, by decide, by decide,
   C7_amended_missing_column exEnv c7Sheet (exFile 0) 0 rfl (by decide)
     (by decide)⟩

/-- Counterexample to C7 as stated: the needed column `Телефон` is absent
from the source, yet the read/projection step does not fail — the pass runs
to completion and sends both rows' emails as if the column were optional. -/
theorem C7_counterexample :
    c7ExtraEnv.needed_columns.contains "Телефон" = true ∧
    (colsOf exSheet).contains "Телефон" = false ∧
    (process_sheet c7ExtraEnv exSheet (exFile 0)).exit = none ∧
    (process_sheet c7ExtraEnv exSheet (exFile 0)).sent = [0, 1] := by decide

/-- A list is a `isPrefixOf` of itself followed by anything. -/
theorem isPrefixOf_append_self :
    ∀ (l1 l2 : List Char), l1.isPrefixOf (l1 ++ l2) = true
  | [], _ => by simp [List.isPrefixOf]
  | a :: t, l2 => by
    simp [List.isPrefixOf, isPrefixOf_append_self t l2]

/-- Appending the suffix makes `pyEndsWith` hold: in particular the tracked
file's own path `dir ++ name` always matches the watcher's filter. -/
theorem pyEndsWith_append_self (dir name : String) :
    pyEndsWith (dir ++ name) name = true := by
  unfold pyEndsWith List.isSuffixOf
  rw [String.data_append, List.reverse_append]
  exact isPrefixOf_append_self _ _

/-- C8 is refuted by `C8_counterexample` (the filter is a path-suffix test,
not an exact-filename test); this is the amended statement.  A modification
event on the tracked file itself (path = directory prefix ++ tracked name)
triggers exactly one processing pass, and an event whose path does not end
with the tracked filename triggers zero passes; but the filter accepts any
path ending in the tracked name, not only the exact file. -/
theorem C8_amended_suffix_filter (dir name p : String)
    (hne : pyEndsWith p name = false) :
    ExcelChangeHandler_on_modified name (dir ++ name) = 1 ∧
    ExcelChangeHandler_on_modified name p = 0 := by
  constructor
  · unfold ExcelChangeHandler_on_modified
    rw [pyEndsWith_append_self]
    simp
  · unfold ExcelChangeHandler_on_modified
    rw [hne]
    simp

/-- Witness for the amended C8. -/
theorem C8_amended_suffix_filter_witness :
    pyEndsWith "/watch/other.csv" "data.xlsx" = false ∧
    (ExcelChangeHandler_on_modified "data.xlsx" ("/watch/" ++ "data.xlsx") = 1 ∧
     ExcelChangeHandler_on_modified "data.xlsx" "/watch/other.csv" = 0) :=
  ⟨by decide,
   C8_amended_suffix_filter "/watch/" "data.xlsx" "/watch/other.csv" (by decide)⟩

/-- Counterexample to C8 as stated: a modification event on a different file
in the same directory (`mydata.xlsx`, whose name merely ends with the
tracked `data.xlsx`) triggers one processing pass instead of zero. -/
theorem C8_counterexample :
    ExcelChangeHandler_on_modified "data.xlsx" "/watch/mydata.xlsx" = 1 ∧
    "/watch/mydata.xlsx" ≠ "/watch/" ++ "data.xlsx" := by decide

/-- Filtering away an offset smaller than the whole block keeps the block. -/
theorem filter_ne_of_lt (k : Nat) :
    ∀ (m c : Nat), k < c →
    (List.range' c m).filter (fun i => !(i == k)) = List.range' c m := by
  intro m c h
  apply List.filter_eq_self.mpr
  intro a ha
  rw [List.mem_range'_1] at ha
  have hne : a ≠ k := by omega
  simp [hne]

/-- Removing an interior offset `k` from the block `[c, c+m)` splits it into
the two adjacent sub-blocks. -/
theorem filter_ne_range' :
    ∀ (m c k : Nat), c ≤ k → k < c + m →
    (List.range' c m).filter (fun i => !(i == k)) =
      List.range' c (k - c) ++ List.range' (k + 1) (c + m - (k + 1)) := by
  intro m
  induction m with
  | zero => intro c k h1 h2; omega
  | succ m ih =>
    intro c k h1 h2
    rw [List.range'_succ, List.filter_cons]
    rcases Nat.eq_or_lt_of_le h1 with hck | hlt
    · subst hck
      have hcond : (!(c == c)) = false := by simp
      rw [hcond]
      have e1 : c - c = 0 := by omega
      have e2 : c + (m + 1) - (c + 1) = m := by omega
      rw [e1, e2]
      simp only [Bool.false_eq_true, if_false]
      rw [filter_ne_of_lt c m (c + 1) (by omega)]
      simp
    · have hcond : (!(c == k)) = true := by
        have : c ≠ k := by omega
        simp [this]
      rw [hcond, if_pos rfl, ih (c + 1) k (by omega) (by omega)]
      have e1 : k - c = (k - (c + 1)) + 1 := by omega
      have e2 : c + 1 + m - (k + 1) = c + (m + 1) - (k + 1) := by omega
      rw [e2, e1, List.range'_succ, List.cons_append]

/-- Keeping only the interior offset `k` of the block `[c, c+m)` yields the
singleton `[k]`. -/
theorem filter_eq_range' :
    ∀ (m c k : Nat), c ≤ k → k < c + m →
    (List.range' c m).filter (fun i => i == k) = [k] := by
  intro m
  induction m with
  | zero => intro c k h1 h2; omega
  | succ m ih =>
    intro c k h1 h2
    rw [List.range'_succ, List.filter_cons]
    rcases Nat.eq_or_lt_of_le h1 with hck | hlt
    · subst hck
      have hcond : (c == c) = true := by simp
      rw [hcond, if_pos rfl]
      have hnil : (List.range' (c + 1) m).filter (fun i => i == c) = [] := by
        apply List.filter_eq_nil_iff.mpr
        intro a ha
        rw [List.mem_range'_1] at ha
        have : a ≠ c := by omega
        simp [this]
      rw [hnil]
    · have hcond : (c == k) = false := by
        have : c ≠ k := by omega
        simp [this]
      rw [hcond]
      simp only [Bool.false_eq_true, if_false]
      exact ih (c + 1) k (by omega) (by omega)

/-- C1 is refuted by `C1_counterexample`; this is the amended statement.
If row `k` (`c ≤ k < n`) fails to send and all other rows of the pass
succeed, the loop logs `k` and continues: every later successful row saves
its own `idx + 1` checkpoint, so the persisted checkpoint after the pass is
`n` whenever rows after `k` exist (`k + 1 ≠ n`), and only equals `k` when
`k` is the last row.  Consequently a subsequent pass does NOT retry row `k`
unless `k` was the last row: the failed row is permanently skipped. -/
theorem C1_amended_failed_row (env : Env) (sheet : Sheet) (file : Config)
    (c k : Nat) (hfile : file.last_processed_row = some c)
    (hck : c ≤ k) (hkn : k < sheet.rows.length)
    (hrows : rowsOK env sheet c)
    (hok : ∀ i, env.sendOk i = !(i == k)) :
    (process_sheet env sheet file).errors = [k] ∧
    (process_sheet env sheet file).sent =
      (List.range' c (sheet.rows.length - c)).filter (fun i => !(i == k)) ∧
    (process_sheet env sheet file).finalFile.last_processed_row =
      some (if k + 1 = sheet.rows.length then k else sheet.rows.length) ∧
    (process_sheet env sheet file).exit = none := by
  rw [process_sheet_rowsOK env sheet file c hfile hrows]
  have hfl : (List.range' c (sheet.rows.length - c)).filter env.sendOk
      = (List.range' c (sheet.rows.length - c)).filter (fun i => !(i == k)) :=
    List.filter_congr (fun x _ => hok x)
  have hfl2 : (List.range' c (sheet.rows.length - c)).filter
        (fun i => !env.sendOk i)
      = (List.range' c (sheet.rows.length - c)).filter (fun i => i == k) := by
    apply List.filter_congr
    intro x _
    rw [hok x, Bool.not_not]
  refine ⟨?_, ?_, ?_, rfl⟩
  · simp only
    rw [hfl2, filter_eq_range' _ c k hck (by omega)]
  · simp only
    rw [hfl]
  · simp only
    rw [hfl, filter_ne_range' _ c k hck (by omega), applyWrites_append]
    by_cases hlastrow : k + 1 = sheet.rows.length
    · rw [if_pos hlastrow]
      have h0 : c + (sheet.rows.length - c) - (k + 1) = 0 := by omega
      rw [h0]
      show (applyWrites file (List.range' c (k - c))).last_processed_row = some k
      rcases Nat.eq_or_lt_of_le hck with hceq | hclt
      · subst hceq
        have hkc : c - c = 0 := by omega
        rw [hkc]
        show file.last_processed_row = some c
        exact hfile
      · rw [applyWrites_range' file c (k - c) (by omega)]
        show some (c + (k - c)) = some k
        rw [show c + (k - c) = k from by omega]
    · rw [if_neg hlastrow]
      have hpos : 0 < c + (sheet.rows.length - c) - (k + 1) := by omega
      rw [applyWrites_range' _ (k + 1) _ hpos]
      show some (k + 1 + (c + (sheet.rows.length - c) - (k + 1)))
        = some sheet.rows.length
      rw [show k + 1 + (c + (sheet.rows.length - c) - (k + 1))
        = sheet.rows.length from by omega]

/-- Witness for the amended C1 at `c = 0`, `n = 2`, failed row `k = 0`:
row 1's later success drives the persisted checkpoint to `2`. -/
theorem C1_amended_failed_row_witness :
    (exFile 0).last_processed_row = some 0 ∧
    0 < exSheet.rows.length ∧
    rowsOK failEnv0 exSheet 0 ∧
    ((process_sheet failEnv0 exSheet (exFile 0)).errors = [0] ∧
     (process_sheet failEnv0 exSheet (exFile 0)).sent = [1] ∧
     (process_sheet failEnv0 exSheet (exFile 0)).finalFile.last_processed_row
       = some 2 ∧
     (process_sheet failEnv0 exSheet (exFile 0)).exit = none) :=
  ⟨rfl, by decide, by decide,
   C1_amended_failed_row failEnv0 exSheet (exFile 0) 0 0 rfl (by decide)
     (by decide) (by decide) (fun _ => rfl)⟩

/-- Counterexample to C1 as stated: checkpoint `c = 0`, table of `n = 2`
rows, row `k = 0` fails (`errors = [0]`), row 1 succeeds — yet the persisted
checkpoint after the pass is `2 = n`, not `k = 0`: the successful send of
row 1 raised the checkpoint past the failed row, so no subsequent pass
retries row 0. -/
theorem C1_counterexample :
    (process_sheet failEnv0 exSheet (exFile 0)).errors = [0] ∧
    (process_sheet failEnv0 exSheet (exFile 0)).sent = [1] ∧
    (process_sheet failEnv0 exSheet (exFile 0)).finalFile.last_processed_row
      = some 2 ∧
    ¬ (process_sheet failEnv0 exSheet (exFile 0)).finalFile.last_processed_row
      = some 0 := by decide

/-- Whitespace characters are fixed points of `charLower`. -/
theorem isPySpace_charLower {ch : Char} (h : isPySpace ch = true) :
    charLower ch = ch := by
  unfold isPySpace at h
  simp only [Bool.or_eq_true, decide_eq_true_eq] at h
  rcases h with ((((h | h) | h) | h) | h) | h <;> subst h <;> decide

/-- `dropWhile` over an all-satisfying prefix skips the whole prefix. -/
theorem dropWhile_append_all {p : Char → Bool} :
    ∀ (l1 l2 : List Char), (∀ a ∈ l1, p a = true) →
    (l1 ++ l2).dropWhile p = l2.dropWhile p := by
  intro l1
  induction l1 with
  | nil => intro l2 _; rfl
  | cons a t ih =>
    intro l2 h
    rw [List.cons_append, List.dropWhile_cons,
      if_pos (h a (List.mem_cons_self _ _))]
    exact ih l2 (fun x hx => h x (List.mem_cons_of_mem _ hx))

/-- `dropWhile` keeps a list whose head falsifies the predicate. -/
theorem dropWhile_of_head_false {p : Char → Bool} {l : List Char} {a : Char}
    {t : List Char} (h : l = a :: t) (ha : p a = false) :
    l.dropWhile p = l := by
  subst h
  rw [List.dropWhile_cons, if_neg (by simp [ha])]

/-- Stripping a string whose core lowercases to `"прошел"`, padded by
whitespace on both sides, recovers the core: the pass marker's first and
last characters cannot be whitespace, because whitespace is fixed by
`charLower` while the marker's letters are not whitespace. -/
theorem pyStrip_padded (pre core suf : String)
    (hpre : ∀ a ∈ pre.data, isPySpace a = true)
    (hsuf : ∀ a ∈ suf.data, isPySpace a = true)
    (hlow : pyLower core = "прошел") :
    pyStrip (pre ++ core ++ suf) = core := by
  have hmap : core.data.map charLower = "прошел".data :=
    congrArg String.data hlow
  obtain ⟨a, t, hcd⟩ : ∃ a t, core.data = a :: t := by
    cases hc : core.data with
    | nil => rw [hc] at hmap; exact absurd hmap (by decide)
    | cons a t => exact ⟨a, t, rfl⟩
  have hdata : "прошел".data = 'п' :: "рошел".data := by decide
  have hha : isPySpace a = false := by
    rw [hcd, List.map_cons, hdata] at hmap
    injection hmap with h1 _
    cases hsp : isPySpace a with
    | false => rfl
    | true =>
      rw [isPySpace_charLower hsp] at h1
      rw [h1] at hsp
      exact absurd hsp (by decide)
  have hrevmap : core.data.reverse.map charLower = "прошел".data.reverse := by
    rw [List.map_reverse, hmap]
  obtain ⟨b, t2, hcrev⟩ : ∃ b t2, core.data.reverse = b :: t2 := by
    cases hc : core.data.reverse with
    | nil => rw [hc] at hrevmap; exact absurd hrevmap (by decide)
    | cons b t2 => exact ⟨b, t2, rfl⟩
  have hrevdata : "прошел".data.reverse = 'л' :: "ешорп".data := by decide
  have hhb : isPySpace b = false := by
    rw [hcrev, List.map_cons, hrevdata] at hrevmap
    injection hrevmap with h1 _
    cases hsp : isPySpace b with
    | false => rfl
    | true =>
      rw [isPySpace_charLower hsp] at h1
      rw [h1] at hsp
      exact absurd hsp (by decide)
  apply String.ext
  show ((((pre ++ core ++ suf).data.dropWhile isPySpace).reverse.dropWhile
    isPySpace).reverse) = core.data
  have hD : (pre ++ core ++ suf).data
      = pre.data ++ (core.data ++ suf.data) := by
    rw [String.data_append, String.data_append, List.append_assoc]
  have hcore_suf : core.data ++ suf.data = a :: (t ++ suf.data) := by
    rw [hcd, List.cons_append]
  rw [hD, dropWhile_append_all _ _ hpre,
    dropWhile_of_head_false hcore_suf hha,
    List.reverse_append,
    dropWhile_append_all _ _ (fun x hx => hsuf x (List.mem_reverse.mp hx)),
    dropWhile_of_head_false hcrev hhb,
    List.reverse_reverse]

/-- C4: template selection maps every result value whose trimmed, lowercased
string form equals `"прошел"` — any letter case, any leading/trailing
whitespace — to `passed.j2`, and maps every other value, including the empty
string and a pandas missing value, to `failed.j2`. -/
theorem C4_template_selection (pre core suf : String)
    (hpre : ∀ a ∈ pre.data, isPySpace a = true)
    (hsuf : ∀ a ∈ suf.data, isPySpace a = true)
    (hlow : pyLower core = "прошел") :
    select_template (.str (pre ++ core ++ suf)) = "passed.j2" ∧
    (∀ v : CellVal, pyLower (pyStrip (cellStr v)) ≠ "прошел" →
      select_template v = "failed.j2") ∧
    select_template (.str "") = "failed.j2" ∧
    select_template .nan = "failed.j2" := by
  refine ⟨?_, ?_, by decide, by decide⟩
  · unfold select_template
    rw [show cellStr (.str (pre ++ core ++ suf)) = pre ++ core ++ suf from rfl,
      pyStrip_padded pre core suf hpre hsuf hlow, if_pos hlow]
  · intro v hv
    unfold select_template
    rw [if_neg hv]

/-- Witness for C4 with an uppercase, whitespace-padded marker. -/
theorem C4_template_selection_witness :
    (∀ a ∈ (" ".data), isPySpace a = true) ∧
    pyLower "ПРОШЕЛ" = "прошел" ∧
    (select_template (.str (" " ++ "ПРОШЕЛ" ++ " ")) = "passed.j2" ∧
     select_template (.str "не прошел") = "failed.j2" ∧
     select_template (.str "") = "failed.j2" ∧
     select_template .nan = "failed.j2") :=
  ⟨by decide, by decide,
   (C4_template_selection " " "ПРОШЕЛ" " " (by decide) (by decide)
      (by decide)).1,
   (C4_template_selection " " "ПРОШЕЛ" " " (by decide) (by decide)
      (by decide)).2.1 (.str "не прошел") (by decide),
   (C4_template_selection " " "ПРОШЕЛ" " " (by decide) (by decide)
      (by decide)).2.2.1,
   (C4_template_selection " " "ПРОШЕЛ" " " (by decide) (by decide)
      (by decide)).2.2.2⟩
